import Mathlib

/-!
Verification of the ClaudeMiner session observation and status-decision
engine.  The definitions below are a shallow embedding of the Rust source
(`src-tauri/src/coordinator/core.rs`, `src-tauri/src/session/state.rs`,
`src-tauri/src/session/cleaner.rs`, `src-tauri/src/monitor/log.rs`,
`src-tauri/src/session/analyzer.rs`).  Machine integers are modelled as
`Nat`, `f32` CPU percentages as `ℚ`, the coordinator's `HashMap`s as
association lists, and the external probes (`sysinfo` process liveness,
the TTY probe, the debug-directory pid resolver, the wall clock) as an
explicit environment record.
-/

namespace ClaudeMiner

/-- Working state derived from a debug log (types.rs, `WorkingState`). -/
inductive WorkingState where
  | ActivelyWorking
  | GeneratingResponse
  | Idle
  | Unknown
deriving DecidableEq, Repr

/-- Log file change event (session/state.rs, `LogEvent`). -/
structure LogEvent where
  session_id : String
  pid : Option Nat
  timestamp : Nat
  state : WorkingState
  has_approval_pending : Bool
  file_mtime : Nat
deriving DecidableEq, Repr

/-- CPU usage change event (session/state.rs, `CpuEvent`); `cpu_percent` is
`f32` in the source, modelled as `ℚ`. -/
structure CpuEvent where
  pid : Nat
  timestamp : Nat
  cpu_percent : ℚ
deriving DecidableEq, Repr

/-- Hook event from the named pipe (session/state.rs, `HookEvent`). -/
structure HookEvent where
  sid : String
  evt : String
deriving DecidableEq, Repr

/-- Unified monitor event (session/state.rs, `MonitorEvent`). -/
inductive MonitorEvent where
  | Log (e : LogEvent)
  | Cpu (e : CpuEvent)
  | Hook (e : HookEvent)
deriving DecidableEq, Repr

/-- Session type (session/state.rs, `SessionType`). -/
inductive SessionType where
  | Legacy
  | Hook
deriving DecidableEq, Repr

/-- Session state aggregated from all events (session/state.rs,
`SessionState`).  `current_status` is a `&'static str` in the source. -/
structure SessionState where
  pid : Nat
  session_id : String
  session_type : SessionType
  last_log_event : Option LogEvent
  last_cpu_event : Option CpuEvent
  current_status : String
  has_terminal : Bool
  last_update : Nat
  last_active_timestamp : Option Nat
deriving DecidableEq, Repr

/-- `SessionState::new_legacy` (session/state.rs).  The source reads the
wall clock for `last_update`; the clock value is passed explicitly. -/
def SessionState.new_legacy (now : Nat) (pid : Nat) (session_id : String) : SessionState where
  pid := pid
  session_id := session_id
  session_type := SessionType.Legacy
  last_log_event := none
  last_cpu_event := none
  current_status := "unknown"
  has_terminal := true
  last_update := now
  last_active_timestamp := none

/-- `SessionState::new_hook` (session/state.rs). -/
def SessionState.new_hook (now : Nat) (session_id : String) : SessionState where
  pid := 0
  session_id := session_id
  session_type := SessionType.Hook
  last_log_event := none
  last_cpu_event := none
  current_status := "resting"
  has_terminal := true
  last_update := now
  last_active_timestamp := none

/-- Whether `pat` is a leading sequence of `text` (character lists). -/
def charsStartWith : List Char → List Char → Bool
  | [], _ => true
  | _ :: _, [] => false
  | a :: pat, b :: text => a == b && charsStartWith pat text

/-- Whether `pat` occurs contiguously inside `text` (character lists). -/
def charsContain (pat : List Char) : List Char → Bool
  | [] => charsStartWith pat []
  | b :: text => charsStartWith pat (b :: text) || charsContain pat text

/-- Rust `str::contains` for literal patterns. -/
def strContains (s pat : String) : Bool :=
  charsContain pat.toList s.toList

/-- Rust `str::starts_with` modelled on character lists (the built-in
`String.startsWith` works on byte positions, which the kernel cannot
evaluate). -/
def strStartsWith (s pre : String) : Bool :=
  charsStartWith pre.toList s.toList

/-- Rust `str::to_lowercase`, per-character (ASCII-faithful). -/
def strToLower (s : String) : String :=
  String.mk (s.toList.map Char.toLower)

/-- `SessionState::upgrade_to_hook` (session/state.rs).  The source mutates
`self` and returns a `bool`; modelled as returning the flag together with
the updated session. -/
def SessionState.upgrade_to_hook (s : SessionState) : Bool × SessionState :=
  if s.session_type = SessionType.Legacy then
    if s.session_id.length = 36 ∧
       ¬ strStartsWith s.session_id "pid-" ∧
       ¬ strStartsWith s.session_id "$" then
      (true, { s with session_type := SessionType.Hook })
    else
      (false, s)
  else
    -- already a Hook session: the source returns true without changes
    (true, s)

/-! ### The coordinator's maps

`HashMap<String, SessionState>` and `HashMap<u32, String>` are modelled as
association lists.  The list order stands in for the hash map's (otherwise
unspecified) iteration order; all quantified theorems range over every
list, hence over every iteration order. -/

/-- The coordinator's session table / the shared snapshot. -/
abbrev SessionMap := List (String × SessionState)

/-- The coordinator-private pid → session-id index. -/
abbrev PidMap := List (Nat × String)

def mapFind : SessionMap → String → Option SessionState
  | [], _ => none
  | (k', v) :: rest, k => if k' = k then some v else mapFind rest k

def mapInsert : SessionMap → String → SessionState → SessionMap
  | [], k, v => [(k, v)]
  | (k', v') :: rest, k, v =>
      if k' = k then (k, v) :: rest else (k', v') :: mapInsert rest k v

def mapErase (m : SessionMap) (k : String) : SessionMap :=
  List.filter (fun p => !(p.1 == k)) m

def pidFind : PidMap → Nat → Option String
  | [], _ => none
  | (k', v) :: rest, k => if k' = k then some v else pidFind rest k

def pidInsert : PidMap → Nat → String → PidMap
  | [], k, v => [(k, v)]
  | (k', v') :: rest, k, v =>
      if k' = k then (k, v) :: rest else (k', v') :: pidInsert rest k v

def pidErase (m : PidMap) (k : Nat) : PidMap :=
  List.filter (fun p => !(p.1 == k)) m

/-! ### External capabilities

The coordinator consults the wall clock (`current_timestamp`), the
`sysinfo` process table (`is_process_alive`), the TTY probe
(`is_zombie_by_tty`) and the debug-directory pid resolver
(`find_session_id_for_pid`).  They are modelled as a record of pure
functions; one record is supplied per processed event. -/

structure Env where
  alive : Nat → Bool
  ttyZombie : Nat → Bool
  resolveSid : Nat → Option String
  now : Nat

/-- `is_process_alive` (session/cleaner.rs): pid 0 is never alive, other
pids are looked up in the process table. -/
def is_process_alive (alive : Nat → Bool) (pid : Nat) : Bool :=
  if pid = 0 then false else alive pid

/-! ### Status decision (coordinator/core.rs) -/

/-- The idle-guard block of `decide_status_legacy` (core.rs lines
427-461).  `some r` models an early `return r`; `none` means fall
through.  Ages use `Nat` subtraction, matching `saturating_sub`; the
`0.5` threshold is the exact rational `mkRat 1 2`. -/
def idleGuard (env : Env) (s : SessionState) : Option String :=
  if s.current_status = "working" then
    match s.last_cpu_event with
    | some cpu =>
        if env.now - cpu.timestamp < 10 ∧ cpu.cpu_percent ≤ mkRat 1 2 then
          match s.last_log_event with
          | some log =>
              if env.now - log.file_mtime > 45 then some "resting" else none
          | none =>
              if env.now - s.last_update > 60 then some "resting" else none
        else none
    | none => none
  else none

/-- The `ActivelyWorking` block of `decide_status_legacy` (core.rs lines
464-527).  Entered only when a log sample exists; every path inside the
`ActivelyWorking` case returns. -/
def streamBlock (env : Env) (s : SessionState) (log : LogEvent) : Option String :=
  let mtime_age := env.now - log.file_mtime
  if log.state = WorkingState.ActivelyWorking then
    if mtime_age ≥ 30 then some "resting"
    else
      match s.last_cpu_event with
      | some cpu =>
          let cpu_age := env.now - cpu.timestamp
          if cpu_age < 10 ∧ cpu.cpu_percent > 10 then some "working"
          else if cpu_age < 10 ∧ cpu.cpu_percent ≤ 10 ∧ mtime_age < 30 then some "working"
          else if cpu_age < 10 ∧ mtime_age ≥ 30 then some "resting"
          else if s.pid ≠ 0 ∧ mtime_age < 5 then some "working"
          else some "resting"
      | none =>
          if s.pid ≠ 0 ∧ mtime_age < 5 then some "working"
          else some "resting"
  else none

/-- `decide_status_legacy` (core.rs lines 412-542). -/
def decide_status_legacy (env : Env) (s : SessionState) : String :=
  if s.has_terminal = false then "zombie"
  else
    match idleGuard env s with
    | some r => r
    | none =>
        match (match s.last_log_event with
               | some log => streamBlock env s log
               | none => none) with
        | some r => r
        | none =>
            match s.last_cpu_event with
            | some cpu =>
                if env.now - cpu.timestamp < 10 ∧ cpu.cpu_percent > 10
                then "working" else "resting"
            | none => "resting"

/-- `decide_status_hook` (core.rs lines 545-552): hook sessions keep the
status set by hook events. -/
def decide_status_hook (s : SessionState) : String :=
  s.current_status

/-- `decide_status` (core.rs lines 372-407). -/
def decide_status (env : Env) (s : SessionState) : String :=
  if s.has_terminal = false then "zombie"
  else if s.pid ≠ 0 ∧ env.ttyZombie s.pid = true then "zombie"
  else
    let status :=
      match s.session_type with
      | SessionType.Legacy => decide_status_legacy env s
      | SessionType.Hook => decide_status_hook s
    if status = "unknown" then "resting" else status

/-! ### Log analysis (monitor/log.rs, session/analyzer.rs)

Files are modelled at line granularity: a file's content is its list of
lines (none of which contains a newline), so the source's
split / join("\n") / re-split round trip is the identity. -/

/-- `analyze_log_content` (session/analyzer.rs lines 13-34): looks for the
stream-start marker or a case-insensitive "compacting" in the last 100
lines. -/
def analyze_log_content (lines : List String) : WorkingState :=
  let last_100_lines := (lines.reverse).take 100
  let has_stream_started :=
    last_100_lines.any (fun line => strContains line "Stream started - received first chunk")
  let has_compacting :=
    last_100_lines.any (fun line => strContains (strToLower line) "compacting")
  if has_stream_started || has_compacting
  then WorkingState.ActivelyWorking
  else WorkingState.Unknown

/-- The last `n` lines of a file, in file order. -/
def lastLines (n : Nat) (fileLines : List String) : List String :=
  ((fileLines.reverse).take n).reverse

/-- The `state` field computed by `analyze_log_file` (monitor/log.rs lines
120-157): the file tail is truncated to its last 50 lines before
`analyze_log_content` runs. -/
def analyze_log_file_state (fileLines : List String) : WorkingState :=
  analyze_log_content (lastLines 50 fileLines)

/-! ### Event handlers (coordinator/core.rs)

The handlers mutate the session table, the pid index and fire
lifecycle/notification sinks; they are modelled as pure functions
returning the new table, the new index and the list of emitted sink
calls (in emission order). -/

/-- Lifecycle / notification sink calls (event/, notification/). -/
inductive Emit where
  | created (s : SessionState)
  | statusChanged (s : SessionState)
  | terminated (s : SessionState)
  | taskCompletion (s : SessionState)
deriving DecidableEq, Repr

/-- `CleanupEvent` (session/cleaner.rs). -/
inductive CleanupEv where
  | ProcessTerminated (pid : Nat)
  | SessionBecameZombie (sid : String)
  | CheckDeadSessions
  | ForceCleanup (sid : String)
  | CleanupZombies
deriving DecidableEq, Repr

/-- The temp-pid scan at the top of `handle_log_event` (core.rs lines
133-143): the first entry (in iteration order) whose key starts with
"pid-" and whose pid is non-zero. -/
def firstTempPid : SessionMap → Option Nat
  | [] => none
  | (k, v) :: rest =>
      if strStartsWith k "pid-" ∧ v.pid ≠ 0 then some v.pid else firstTempPid rest

/-- The scan only assigns `found_pid` while
`!sessions.contains_key(&session_id)`; that condition is loop-invariant,
so it is hoisted here. -/
def findTempPid (sessions : SessionMap) (sid : String) : Option Nat :=
  if (mapFind sessions sid).isSome then none else firstTempPid sessions

/-- The dead-pid guard of `handle_log_event` (core.rs lines 146-152). -/
def deadPid (env : Env) : Option Nat → Bool
  | some p => decide (p ≠ 0) && !(is_process_alive env.alive p)
  | none => false

/-- `handle_log_event` (core.rs lines 122-229). -/
def handle_log_event (env : Env) (e : LogEvent) (sessions : SessionMap) (idx : PidMap) :
    SessionMap × PidMap × List Emit :=
  let sid := e.session_id
  let found_pid := findTempPid sessions sid
  if deadPid env (found_pid.or e.pid) then
    (sessions, idx, [])
  else
    let is_new := (mapFind sessions sid).isNone
    let s0 := (mapFind sessions sid).getD
      (SessionState.new_legacy env.now ((found_pid.or e.pid).getD 0) sid)
    if s0.pid ≠ 0 ∧ is_process_alive env.alive s0.pid = false then
      -- dead existing pid: skip the update but keep the session
      (mapInsert sessions sid s0, idx, [])
    else
      let upd : Option Nat :=
        match found_pid with
        | some p => if s0.pid = 0 then some p else none
        | none => none
      let s1 := match upd with
                | some p => { s0 with pid := p }
                | none => s0
      let idx1 := match upd with
                  | some p => pidInsert idx p sid
                  | none => idx
      let temp_id_to_remove : Option String :=
        match upd with
        | some p => some ("pid-" ++ toString p)
        | none => none
      let s2 := { s1 with last_log_event := some e, last_update := env.now }
      let old_status := s2.current_status
      let new_status := decide_status env s2
      let s3 := if new_status ≠ old_status
                then { s2 with current_status := new_status } else s2
      let sessions1 := mapInsert sessions sid s3
      let sessions2 := match temp_id_to_remove with
                       | some t => mapErase sessions1 t
                       | none => sessions1
      let emits :=
        (if is_new ∧ s3.pid ≠ 0 then [Emit.created s3] else []) ++
        (if new_status ≠ old_status then
           [Emit.statusChanged s3] ++
           (if old_status = "working" ∧ new_status = "resting"
            then [Emit.taskCompletion s3] else [])
         else [])
      (sessions2, idx1, emits)

/-- The TTY zombie check of `handle_cpu_event`, run on Legacy sessions
only (core.rs lines 256-295): returns the updated session and the
cleanup events sent. -/
def cpuTtyCheck (env : Env) (e : CpuEvent) (sid : String) (s3 : SessionState) :
    SessionState × List CleanupEv :=
  if s3.session_type = SessionType.Legacy then
    let is_zombie := env.ttyZombie e.pid
    let has_tty := !is_zombie
    let ttyChanged :=
      if s3.has_terminal ≠ has_tty then
        let sA := { s3 with has_terminal := has_tty }
        if is_zombie
        then ({ sA with current_status := "zombie" },
              [CleanupEv.SessionBecameZombie sid])
        else (sA, [])
      else (s3, [])
    -- double check: even if has_terminal did not change, verify zombie
    if is_zombie = true ∧ ttyChanged.1.current_status ≠ "zombie" then
      ({ ttyChanged.1 with current_status := "zombie" },
       ttyChanged.2 ++ [CleanupEv.SessionBecameZombie sid])
    else ttyChanged
  else (s3, [])

/-- The idle re-decision of `handle_cpu_event`, run on working Legacy
sessions only (core.rs lines 298-315): returns the updated session and
the emitted lifecycle events. -/
def cpuIdleRecheck (env : Env) (s4 : SessionState) : SessionState × List Emit :=
  if s4.current_status = "working" ∧ s4.session_type = SessionType.Legacy then
    let new_status := decide_status env s4
    if new_status ≠ s4.current_status then
      let sC := { s4 with current_status := new_status }
      (sC, [Emit.statusChanged sC] ++
           (if s4.current_status = "working" ∧ new_status = "resting"
            then [Emit.taskCompletion sC] else []))
    else (s4, [])
  else (s4, [])

/-- `handle_cpu_event` (core.rs lines 231-369). -/
def handle_cpu_event (env : Env) (e : CpuEvent) (sessions : SessionMap) (idx : PidMap) :
    SessionMap × PidMap × List Emit × List CleanupEv :=
  match pidFind idx e.pid with
  | some sid =>
      match mapFind sessions sid with
      | some s =>
          let s1 := { s with last_cpu_event := some e, last_update := env.now }
          let s2 := if s1.pid = 0 then { s1 with pid := e.pid } else s1
          let s3 := if e.cpu_percent > 1
                    then { s2 with last_active_timestamp := some env.now } else s2
          let ttyRes := cpuTtyCheck env e sid s3
          let idleRes := cpuIdleRecheck env ttyRes.1
          (mapInsert sessions sid idleRes.1, idx, idleRes.2, ttyRes.2)
      | none => (sessions, idx, [], [])
  | none =>
      -- unknown pid: resolve a session id from the debug directory
      match env.resolveSid e.pid with
      | some sid =>
          let s0 := (mapFind sessions sid).getD
            (let n := SessionState.new_legacy env.now e.pid sid
             { n with current_status := "resting" })
          let s1 := { s0 with last_cpu_event := some e, last_update := env.now }
          let is_zombie := env.ttyZombie e.pid
          let s2 := { s1 with has_terminal := !is_zombie }
          let s3 := if is_zombie then { s2 with current_status := "zombie" } else s2
          let idx1 := pidInsert idx e.pid sid
          let new_status := decide_status env s3
          let final :=
            if new_status ≠ s3.current_status then
              let sC := { s3 with current_status := new_status }
              (sC, [Emit.statusChanged sC])
            else (s3, [])
          (mapInsert sessions sid final.1, idx1, final.2, [])
      | none => (sessions, idx, [], [])

/-- `handle_hook_event` (core.rs lines 578-664). -/
def handle_hook_event (env : Env) (e : HookEvent) (sessions : SessionMap) :
    SessionMap × List Emit :=
  let sid := e.sid
  if e.evt = "start" then
    let is_new := (mapFind sessions sid).isNone
    let s0 := (mapFind sessions sid).getD (SessionState.new_hook env.now sid)
    let s1 := (s0.upgrade_to_hook).2
    let s2 := { s1 with current_status := "resting", last_update := env.now }
    (mapInsert sessions sid s2, if is_new then [Emit.created s2] else [])
  else if e.evt = "working" then
    match mapFind sessions sid with
    | some s =>
        let s1 := (s.upgrade_to_hook).2
        let old_status := s1.current_status
        let s2 := { s1 with current_status := "working", last_update := env.now }
        (mapInsert sessions sid s2,
         if old_status ≠ "working" then [Emit.statusChanged s2] else [])
    | none => (sessions, [])
  else if e.evt = "resting" then
    match mapFind sessions sid with
    | some s =>
        let s1 := (s.upgrade_to_hook).2
        let old_status := s1.current_status
        let s2 := { s1 with current_status := "resting", last_update := env.now }
        (mapInsert sessions sid s2,
         if old_status ≠ "resting" then
           [Emit.statusChanged s2] ++
           (if old_status = "working" then [Emit.taskCompletion s2] else [])
         else [])
    | none => (sessions, [])
  else if e.evt = "end" then
    match mapFind sessions sid with
    | some s => (mapErase sessions sid, [Emit.terminated s])
    | none => (sessions, [])
  else
    (sessions, [])

/-! ### Session cleaner (session/cleaner.rs) -/

/-- The removal test of `cleanup_all_zombies` (cleaner.rs lines 190-205):
temporary `pid-` zombies are collected unconditionally, other zombies
only when their pid is 0 or their process is gone. -/
def zombieRemovable (alive : Nat → Bool) (k : String) (s : SessionState) : Bool :=
  (strStartsWith k "pid-" && (s.current_status == "zombie")) ||
  ((s.current_status == "zombie") &&
   ((s.pid == 0) || !(is_process_alive alive s.pid)))

/-- `SessionCleaner::cleanup_all_zombies` (cleaner.rs lines 184-217):
collect the removable keys, then remove each from the shared snapshot. -/
def cleanup_all_zombies (alive : Nat → Bool) (sessions : SessionMap) : SessionMap :=
  let zombie_sessions :=
    (sessions.filter (fun p => zombieRemovable alive p.1 p.2)).map Prod.fst
  zombie_sessions.foldl mapErase sessions

/-- `cleanup_stale_sessions` (core.rs lines 666-692): drop sessions idle
for over an hour, with their pid-index entries, emitting `terminated`. -/
def cleanup_stale_sessions (now : Nat) (sessions : SessionMap) (idx : PidMap) :
    SessionMap × PidMap × List Emit :=
  let removed := sessions.filter (fun p => decide (now - p.2.last_update > 3600))
  let kept := sessions.filter (fun p => !(decide (now - p.2.last_update > 3600)))
  let idx1 := removed.foldl (fun i p => pidErase i p.2.pid) idx
  (kept, idx1, removed.map (fun p => Emit.terminated p.2))

/-! ### The coordinator loop (core.rs `run_coordinator`)

One iteration: dispatch the received event to its handler, then merge the
local table into the shared snapshot (inserting every local session and
dropping local sessions that are no longer in the snapshot), then run the
stale-session sweep when the table exceeds 100 entries. -/

structure CoordState where
  sessions : SessionMap
  idx : PidMap
  shared : SessionMap
deriving Repr

def insertAll (shared : SessionMap) : SessionMap → SessionMap
  | [] => shared
  | (k, v) :: rest => insertAll (mapInsert shared k v) rest

/-- One iteration of `run_coordinator` (core.rs lines 54-119), minus the
logging-only summary block. -/
def coordStep (env : Env) (st : CoordState) (ev : MonitorEvent) : CoordState × List Emit :=
  let afterHandler :=
    match ev with
    | MonitorEvent.Log e =>
        let r := handle_log_event env e st.sessions st.idx
        (r.1, r.2.1, r.2.2)
    | MonitorEvent.Cpu e =>
        let r := handle_cpu_event env e st.sessions st.idx
        (r.1, r.2.1, r.2.2.1)
    | MonitorEvent.Hook e =>
        let r := handle_hook_event env e st.sessions
        (r.1, st.idx, r.2)
  let sessions1 := afterHandler.1
  let idx1 := afterHandler.2.1
  let emits := afterHandler.2.2
  let shared1 := insertAll st.shared sessions1
  let removed_ids := (sessions1.map Prod.fst).filter
    (fun k => (mapFind shared1 k).isNone)
  let sessions2 := removed_ids.foldl mapErase sessions1
  if sessions2.length > 100 then
    let r := cleanup_stale_sessions env.now sessions2 idx1
    (⟨r.1, r.2.1, shared1⟩, emits ++ r.2.2)
  else
    (⟨sessions2, idx1, shared1⟩, emits)

/-- An interleaved step of the system: either the coordinator processes a
monitor event, or the cleaner removes one key from the shared snapshot
(every cleaner action only removes keys; cleaner.rs). -/
inductive SysStep where
  | coord (env : Env) (ev : MonitorEvent)
  | cleanerRemove (k : String)

def sysStep (st : CoordState) : SysStep → CoordState
  | SysStep.coord env ev => (coordStep env st ev).1
  | SysStep.cleanerRemove k => ⟨st.sessions, st.idx, mapErase st.shared k⟩

def initState : CoordState := ⟨[], [], []⟩

def runSteps (steps : List SysStep) : CoordState :=
  steps.foldl sysStep initState

/-- The event-dispatch part of the coordinator loop: route one monitor
event to its handler, tracking the session table and the pid index. -/
def applyMonEvent (p : Env × MonitorEvent) (st : SessionMap × PidMap) :
    SessionMap × PidMap :=
  match p.2 with
  | MonitorEvent.Log e =>
      let r := handle_log_event p.1 e st.1 st.2
      (r.1, r.2.1)
  | MonitorEvent.Cpu e =>
      let r := handle_cpu_event p.1 e st.1 st.2
      (r.1, r.2.1)
  | MonitorEvent.Hook e =>
      ((handle_hook_event p.1 e st.1).1, st.2)

def applyMonEvents (steps : List (Env × MonitorEvent)) (st : SessionMap × PidMap) :
    SessionMap × PidMap :=
  steps.foldl (fun acc p => applyMonEvent p acc) st

/-- Whether a monitor event is a hook event. -/
def isHookEvent : MonitorEvent → Bool
  | MonitorEvent.Hook _ => true
  | _ => false

/-- The status vocabulary of the data model. -/
def okStatus (status : String) : Prop :=
  status = "working" ∨ status = "resting" ∨ status = "zombie"

/-- Every session stored in a map carries a status from the vocabulary. -/
def mapOk (m : SessionMap) : Prop :=
  ∀ k v, (k, v) ∈ m → okStatus (SessionState.current_status v)

/-! ### Concrete instances used by the closed theorems -/

/-- A well-formed 36-character session id. -/
def uuidS : String := "aaaaaaaa-bbbb-cccc-dddd-eeeeeeeeeeee"

/-- Environment where every pid is alive, no TTY is a zombie and pid
resolution fails. -/
def envA : Env := ⟨fun _ => true, fun _ => false, fun _ => none, 100⟩

/-- Environment where only pid 9 is alive. -/
def env9 : Env := ⟨fun p => p == 9, fun _ => false, fun _ => none, 100⟩

/-- Environment where no pid is alive. -/
def envDead : Env := ⟨fun _ => false, fun _ => false, fun _ => none, 100⟩

/-- Environment where every pid is alive and pid resolution yields
`uuidS`. -/
def envR : Env := ⟨fun _ => true, fun _ => false, fun _ => some uuidS, 100⟩

/-- A temporary session holding pid 42. -/
def tempSess42 : SessionState := SessionState.new_legacy 50 42 "pid-42"

/-- A temporary session holding pid 9. -/
def tempSess9 : SessionState := SessionState.new_legacy 50 9 "pid-9"

/-- A log event for the real id `uuidS` carrying no pid. -/
def logNoPid : LogEvent := ⟨uuidS, none, 100, WorkingState.Unknown, false, 90⟩

/-- A log event for the real id `uuidS` carrying pid 7. -/
def logPid7 : LogEvent := ⟨uuidS, some 7, 100, WorkingState.Unknown, false, 90⟩

/-- A log event for the real id `uuidS` carrying pid 5. -/
def logPid5 : LogEvent := ⟨uuidS, some 5, 100, WorkingState.Unknown, false, 90⟩

/-- A working Legacy session without a terminal, with an idle CPU sample
and a stale log sample. -/
def idleNoTerm : SessionState :=
  { pid := 7, session_id := "s", session_type := SessionType.Legacy,
    last_log_event := some ⟨"s", none, 0, WorkingState.Unknown, false, 0⟩,
    last_cpu_event := some ⟨7, 100, mkRat 1 10⟩,
    current_status := "working", has_terminal := false,
    last_update := 0, last_active_timestamp := none }

/-- The same working Legacy session, with its terminal. -/
def idleWithTerm : SessionState :=
  { idleNoTerm with has_terminal := true }

/-- A zombie session keyed by a temporary `pid-` id whose pid is alive. -/
def zombie42 : SessionState :=
  { pid := 42, session_id := "pid-42", session_type := SessionType.Legacy,
    last_log_event := none, last_cpu_event := none,
    current_status := "zombie", has_terminal := false,
    last_update := 0, last_active_timestamp := none }

/-- A dead zombie session keyed by its uuid. -/
def zombie7 : SessionState :=
  { pid := 7, session_id := uuidS, session_type := SessionType.Legacy,
    last_log_event := none, last_cpu_event := none,
    current_status := "zombie", has_terminal := false,
    last_update := 0, last_active_timestamp := none }

/-- A working Hook session with a terminal. -/
def hookWorking : SessionState :=
  { pid := 0, session_id := uuidS, session_type := SessionType.Hook,
    last_log_event := none, last_cpu_event := none,
    current_status := "working", has_terminal := true,
    last_update := 50, last_active_timestamp := none }

/-- A 51-line log file whose marker line is the 51st from the end. -/
def fileMarker51 : List String :=
  "Stream started - received first chunk" :: List.replicate 50 "x"

/-- A Legacy session keyed by a well-formed uuid. -/
def legacyUuid : SessionState := SessionState.new_legacy 0 5 uuidS

/-- A two-event coordinator run: a CPU event resolved to `uuidS`
followed by a hook `end` for `uuidS`. -/
def runCpuThenEnd : CoordState :=
  runSteps
    [SysStep.coord envR (MonitorEvent.Cpu ⟨42, 100, 5⟩),
     SysStep.coord envR (MonitorEvent.Hook ⟨uuidS, "end"⟩)]

/-! ### Map lemmas -/

theorem mem_mapInsert {m : SessionMap} {k : String} {v p} :
    p ∈ mapInsert m k v → p = (k, v) ∨ p ∈ m := by
  induction m with
  | nil => intro h; simp [mapInsert] at h; exact Or.inl h
  | cons hd tl ih =>
      rcases hd with ⟨k', v'⟩
      intro h
      unfold mapInsert at h
      by_cases hk : k' = k
      · rw [if_pos hk] at h
        rcases List.mem_cons.mp h with h | h
        · exact Or.inl h
        · exact Or.inr (List.mem_cons_of_mem _ h)
      · rw [if_neg hk] at h
        rcases List.mem_cons.mp h with h | h
        · exact Or.inr (h ▸ List.mem_cons_self _ _)
        · rcases ih h with h' | h'
          · exact Or.inl h'
          · exact Or.inr (List.mem_cons_of_mem _ h')

theorem mem_mapErase {m : SessionMap} {k : String} {p} :
    p ∈ mapErase m k → p ∈ m := fun h => List.mem_of_mem_filter h

theorem mapFind_mapInsert_self (m : SessionMap) (k : String) (v : SessionState) :
    mapFind (mapInsert m k v) k = some v := by
  induction m with
  | nil => simp [mapInsert, mapFind]
  | cons hd tl ih =>
      rcases hd with ⟨k', v'⟩
      unfold mapInsert
      by_cases hk : k' = k
      · simp [hk, mapFind]
      · simp [hk, mapFind, ih]

theorem mapFind_mapInsert_ne (m : SessionMap) {k k' : String} (v : SessionState)
    (h : k' ≠ k) : mapFind (mapInsert m k v) k' = mapFind m k' := by
  induction m with
  | nil => simp [mapInsert, mapFind, Ne.symm h]
  | cons hd tl ih =>
      rcases hd with ⟨k₀, v₀⟩
      unfold mapInsert
      by_cases hk : k₀ = k
      · subst hk
        simp [mapFind, Ne.symm h]
      · rw [if_neg hk]
        by_cases hk' : k₀ = k'
        · simp [mapFind, hk']
        · simp [mapFind, hk', ih]

theorem mem_of_mapFind {m : SessionMap} {k : String} {v : SessionState} :
    mapFind m k = some v → (k, v) ∈ m := by
  induction m with
  | nil => intro h; simp [mapFind] at h
  | cons hd tl ih =>
      rcases hd with ⟨k', v'⟩
      intro h
      unfold mapFind at h
      by_cases hk : k' = k
      · subst hk
        rw [if_pos rfl] at h
        cases Option.some.inj h
        exact List.mem_cons_self _ _
      · rw [if_neg hk] at h
        exact List.mem_cons_of_mem _ (ih h)

/-! ### Handler characterization lemmas -/

theorem firstTempPid_ne_zero {m : SessionMap} {p : Nat} (h : firstTempPid m = some p) :
    p ≠ 0 := by
  induction m with
  | nil => simp [firstTempPid] at h
  | cons hd tl ih =>
      rcases hd with ⟨k, v⟩
      unfold firstTempPid at h
      by_cases hc : strStartsWith k "pid-" = true ∧ v.pid ≠ 0
      · rw [if_pos hc] at h
        cases Option.some.inj h
        exact hc.2
      · rw [if_neg hc] at h
        exact ih h

theorem findTempPid_some {m : SessionMap} {sid : String} {p : Nat}
    (h : findTempPid m sid = some p) : mapFind m sid = none ∧ p ≠ 0 := by
  unfold findTempPid at h
  by_cases hf : (mapFind m sid).isSome
  · rw [if_pos hf] at h; cases h
  · rw [if_neg hf] at h
    exact ⟨Option.not_isSome_iff_eq_none.mp hf, firstTempPid_ne_zero h⟩

theorem handle_log_shape (env : Env) (e : LogEvent) (m : SessionMap) (idx : PidMap) :
    handle_log_event env e m idx = (m, idx, []) ∨
    ∃ s' ems, handle_log_event env e m idx = (mapInsert m e.session_id s', idx, ems) := by
  unfold handle_log_event
  dsimp only
  by_cases h1 : deadPid env ((findTempPid m e.session_id).or e.pid) = true
  · rw [if_pos h1]; exact Or.inl rfl
  · rw [if_neg h1]
    right
    cases hf : findTempPid m e.session_id with
    | none =>
        dsimp only [Option.or]
        generalize (mapFind m e.session_id).getD
          (SessionState.new_legacy env.now (e.pid.getD 0) e.session_id) = s0
        by_cases h2 : s0.pid ≠ 0 ∧ is_process_alive env.alive s0.pid = false
        · rw [if_pos h2]; exact ⟨_, _, rfl⟩
        · rw [if_neg h2]; exact ⟨_, _, rfl⟩
    | some p =>
        dsimp only [Option.or]
        obtain ⟨hnone, hp0⟩ := findTempPid_some hf
        rw [hnone]
        dsimp only [SessionState.new_legacy, Option.getD]
        by_cases h2 : p ≠ 0 ∧ is_process_alive env.alive p = false
        · rw [if_pos h2]; exact ⟨_, _, rfl⟩
        · rw [if_neg h2]
          rw [if_neg hp0]
          dsimp only
          exact ⟨_, _, rfl⟩

theorem handle_log_find_other (env : Env) (e : LogEvent) (m : SessionMap) (idx : PidMap)
    (k : String) (hk : k ≠ e.session_id) :
    mapFind (handle_log_event env e m idx).1 k = mapFind m k := by
  rcases handle_log_shape env e m idx with h | ⟨s', ems, h⟩
  · rw [h]
  · rw [h]
    exact mapFind_mapInsert_ne m s' hk

theorem handle_log_preserves_hook (env : Env) (e : LogEvent) (m : SessionMap) (idx : PidMap)
    (sid : String) (s : SessionState)
    (hfind : mapFind m sid = some s)
    (hty : s.session_type = SessionType.Hook)
    (hst : s.current_status = "working")
    (hterm : s.has_terminal = true)
    (htty : ∀ q, env.ttyZombie q = false) :
    ∃ s', mapFind (handle_log_event env e m idx).1 sid = some s' ∧
      s'.session_type = SessionType.Hook ∧ s'.current_status = "working" ∧
      s'.has_terminal = true := by
  by_cases hsid : e.session_id = sid
  · subst hsid
    unfold handle_log_event
    dsimp only
    have hf : findTempPid m e.session_id = none := by
      unfold findTempPid
      rw [hfind]
      simp
    rw [hf]
    dsimp only [Option.or]
    by_cases h1 : deadPid env e.pid = true
    · rw [if_pos h1]
      exact ⟨s, hfind, hty, hst, hterm⟩
    · rw [if_neg h1, hfind]
      dsimp only [Option.getD]
      by_cases h2 : s.pid ≠ 0 ∧ is_process_alive env.alive s.pid = false
      · rw [if_pos h2]
        exact ⟨s, by rw [mapFind_mapInsert_self], hty, hst, hterm⟩
      · rw [if_neg h2]
        have hds : decide_status env
            { s with last_log_event := some e, last_update := env.now } = "working" := by
          unfold decide_status
          dsimp only
          rw [hterm, if_neg (by decide : ¬ ((true : Bool) = false))]
          rw [htty s.pid, if_neg (fun hc => absurd hc.2 (by decide))]
          rw [hty]
          dsimp only [decide_status_hook]
          rw [hst, if_neg (by decide : ¬ (("working" : String) = "unknown"))]
        rw [hds]
        dsimp only
        rw [hst, if_neg (fun hne => hne rfl)]
        refine ⟨_, mapFind_mapInsert_self _ _ _, ?_, ?_, ?_⟩
        · exact hty
        · rfl
        · exact hterm
  · have := handle_log_find_other env e m idx sid (fun h => hsid h.symm)
    rw [this, hfind]
    exact ⟨s, rfl, hty, hst, hterm⟩

theorem handle_cpu_shape (env : Env) (e : CpuEvent) (m : SessionMap) (idx : PidMap) :
    (handle_cpu_event env e m idx).1 = m ∨
    ∃ sid s', (handle_cpu_event env e m idx).1 = mapInsert m sid s' := by
  unfold handle_cpu_event
  cases hp : pidFind idx e.pid with
  | some sid =>
      dsimp only
      cases hm : mapFind m sid with
      | some s => right; exact ⟨sid, _, rfl⟩
      | none => left; rfl
  | none =>
      dsimp only
      cases hr : env.resolveSid e.pid with
      | some sid => right; exact ⟨sid, _, rfl⟩
      | none => left; rfl

theorem cpuTtyCheck_hookSkip (env : Env) (e : CpuEvent) (sid : String)
    (s3 : SessionState) (h : s3.session_type = SessionType.Hook) :
    cpuTtyCheck env e sid s3 = (s3, []) := by
  unfold cpuTtyCheck
  rw [h, if_neg (by decide : ¬ (SessionType.Hook = SessionType.Legacy))]

theorem cpuIdleRecheck_hookSkip (env : Env) (s4 : SessionState)
    (h : s4.session_type = SessionType.Hook) :
    cpuIdleRecheck env s4 = (s4, []) := by
  unfold cpuIdleRecheck
  rw [if_neg (fun hc => by rw [h] at hc; exact absurd hc.2 (by decide))]

theorem handle_cpu_preserves_hook (env : Env) (e : CpuEvent) (m : SessionMap) (idx : PidMap)
    (sid : String) (s : SessionState)
    (hfind : mapFind m sid = some s)
    (hty : s.session_type = SessionType.Hook)
    (hst : s.current_status = "working")
    (hterm : s.has_terminal = true)
    (htty : ∀ q, env.ttyZombie q = false) :
    ∃ s', mapFind (handle_cpu_event env e m idx).1 sid = some s' ∧
      s'.session_type = SessionType.Hook ∧ s'.current_status = "working" ∧
      s'.has_terminal = true := by
  unfold handle_cpu_event
  cases hp : pidFind idx e.pid with
  | some sid0 =>
      dsimp only
      by_cases heq : sid0 = sid
      · subst heq
        rw [hfind]
        dsimp only
        rw [cpuTtyCheck_hookSkip _ _ _ _ (by split_ifs <;> exact hty)]
        dsimp only
        rw [cpuIdleRecheck_hookSkip _ _ (by split_ifs <;> exact hty)]
        dsimp only
        refine ⟨_, mapFind_mapInsert_self _ _ _, ?_, ?_, ?_⟩
        · split_ifs <;> exact hty
        · split_ifs <;> exact hst
        · split_ifs <;> exact hterm
      · cases hm : mapFind m sid0 with
        | some s1 =>
            dsimp only
            rw [mapFind_mapInsert_ne m _ (fun h => heq h.symm), hfind]
            exact ⟨s, rfl, hty, hst, hterm⟩
        | none =>
            dsimp only
            exact ⟨s, hfind, hty, hst, hterm⟩
  | none =>
      dsimp only
      cases hr : env.resolveSid e.pid with
      | some rsid =>
          dsimp only
          by_cases heq : rsid = sid
          · subst heq
            rw [hfind]
            dsimp only [Option.getD]
            rw [htty e.pid]
            dsimp only [Bool.not]
            rw [if_neg (by decide : ¬ ((false : Bool) = true))]
            have hds : decide_status env
                { s with last_cpu_event := some e, last_update := env.now,
                         has_terminal := true } = "working" := by
              unfold decide_status
              dsimp only
              rw [if_neg (by decide : ¬ ((true : Bool) = false))]
              rw [htty s.pid, if_neg (fun hc => absurd hc.2 (by decide))]
              rw [hty]
              dsimp only [decide_status_hook]
              rw [hst, if_neg (by decide : ¬ (("working" : String) = "unknown"))]
            rw [hds]
            dsimp only
            rw [hst, if_neg (fun hne => hne rfl)]
            dsimp only
            refine ⟨_, mapFind_mapInsert_self _ _ _, ?_, ?_, ?_⟩
            · exact hty
            · rfl
            · rfl
          · rw [mapFind_mapInsert_ne m _ (fun h => heq h.symm), hfind]
            exact ⟨s, rfl, hty, hst, hterm⟩
      | none =>
          dsimp only
          exact ⟨s, hfind, hty, hst, hterm⟩

theorem hook_working_invariant_run (steps : List (Env × MonitorEvent))
    (m : SessionMap) (idx : PidMap) (sid : String) (s : SessionState)
    (hfind : mapFind m sid = some s)
    (hty : s.session_type = SessionType.Hook)
    (hst : s.current_status = "working")
    (hterm : s.has_terminal = true)
    (htty : ∀ p ∈ steps, ∀ q, (p : Env × MonitorEvent).1.ttyZombie q = false)
    (hkind : ∀ p ∈ steps, isHookEvent (p : Env × MonitorEvent).2 = false) :
    ∃ s', mapFind (applyMonEvents steps (m, idx)).1 sid = some s' ∧
      s'.session_type = SessionType.Hook ∧ s'.current_status = "working" ∧
      s'.has_terminal = true := by
  induction steps generalizing m idx s with
  | nil => exact ⟨s, hfind, hty, hst, hterm⟩
  | cons p rest ih =>
      have hstep : ∃ s1, mapFind (applyMonEvent p (m, idx)).1 sid = some s1 ∧
          s1.session_type = SessionType.Hook ∧ s1.current_status = "working" ∧
          s1.has_terminal = true := by
        rcases p with ⟨env, ev⟩
        have henvtty : ∀ q, env.ttyZombie q = false :=
          htty ⟨env, ev⟩ (List.mem_cons_self _ _)
        cases ev with
        | Log e =>
            exact handle_log_preserves_hook env e m idx sid s hfind hty hst hterm henvtty
        | Cpu e =>
            exact handle_cpu_preserves_hook env e m idx sid s hfind hty hst hterm henvtty
        | Hook e =>
            have := hkind ⟨env, MonitorEvent.Hook e⟩ (List.mem_cons_self _ _)
            simp [isHookEvent] at this
      rcases hstep with ⟨s1, hf1, hty1, hst1, hterm1⟩
      simp only [applyMonEvents, List.foldl_cons]
      exact ih (applyMonEvent p (m, idx)).1 (applyMonEvent p (m, idx)).2 s1 hf1 hty1 hst1
        hterm1 (fun q hq => htty q (List.mem_cons_of_mem _ hq))
        (fun q hq => hkind q (List.mem_cons_of_mem _ hq))


/-! ## Claim C1 -/

/-- Claim C1: for every Hook-origin session currently "working" (with its
terminal), and every sequence of LogEvent and CpuEvent values processed
by the coordinator in environments where no zombie-pipeline trigger can
fire (the TTY probe never reports a zombie), the session's
`current_status` stays "working": no heuristic status decision changes a
Hook session's status. -/
theorem hook_authority (steps : List (Env × MonitorEvent))
    (m : SessionMap) (idx : PidMap) (sid : String) (s : SessionState)
    (hfind : mapFind m sid = some s)
    (hty : s.session_type = SessionType.Hook)
    (hst : s.current_status = "working")
    (hterm : s.has_terminal = true)
    (htty : ∀ p ∈ steps, ∀ q, (p : Env × MonitorEvent).1.ttyZombie q = false)
    (hkind : ∀ p ∈ steps, isHookEvent (p : Env × MonitorEvent).2 = false) :
    ∃ s', mapFind (applyMonEvents steps (m, idx)).1 sid = some s' ∧
      s'.current_status = "working" := by
  rcases hook_working_invariant_run steps m idx sid s hfind hty hst hterm htty hkind
    with ⟨s', h1, _, h3, _⟩
  exact ⟨s', h1, h3⟩

/-- Non-vacuity of `hook_authority` at a concrete run. -/
theorem hook_authority_witness :
    ∃ s', mapFind (applyMonEvents [(envA, MonitorEvent.Log logNoPid)]
        ([(uuidS, hookWorking)], [])).1 uuidS = some s' ∧
      s'.current_status = "working" :=
  hook_authority [(envA, MonitorEvent.Log logNoPid)] [(uuidS, hookWorking)] [] uuidS
    hookWorking (by decide) rfl rfl rfl
    (by intro p hp q; rcases List.mem_singleton.mp hp with rfl; rfl)
    (by intro p hp; rcases List.mem_singleton.mp hp with rfl; rfl)

/-! ## Claim C10 -/

/-- Claim C10: processing a HookEvent with evt "working" or evt "resting"
whose sid is not present in the session table leaves the session table
unchanged: no session is created, no status is set, and no lifecycle
event or notification is produced. -/
theorem hook_unknown_sid_noop (env : Env) (e : HookEvent) (sessions : SessionMap)
    (hevt : e.evt = "working" ∨ e.evt = "resting")
    (habs : mapFind sessions e.sid = none) :
    handle_hook_event env e sessions = (sessions, []) := by
  rcases hevt with h | h <;> simp [handle_hook_event, h, habs]

/-- Non-vacuity of `hook_unknown_sid_noop` at a concrete input. -/
theorem hook_unknown_sid_noop_witness :
    handle_hook_event envA ⟨uuidS, "working"⟩ [] = ([], []) :=
  hook_unknown_sid_noop envA ⟨uuidS, "working"⟩ [] (Or.inl rfl) rfl

/-! ## Claim C2 -/

/-- Claim C2 fails on the code: starting from a table holding the
temporary session `pid-42` with live pid 42, a LogEvent for the real id
`uuidS` (absent from the table) creates `uuidS` with pid 42 but leaves
`pid-42` in the table — the merge branch of `handle_log_event` requires
`session.pid == 0`, which cannot hold once `found_pid` seeded the new
session's pid. -/
theorem merge_law_failing_run :
    (mapFind (handle_log_event envA logNoPid [("pid-42", tempSess42)] []).1 "pid-42"
       = some tempSess42) ∧
    (Option.map SessionState.pid
       (mapFind (handle_log_event envA logNoPid [("pid-42", tempSess42)] []).1 uuidS)
       = some 42) := by decide

/-! ## Claim C9 -/

/-- Claim C9 fails on the code: after a CPU event that creates session
`uuidS` with pid 42 (indexing 42 → `uuidS`) and a hook `end` event that
deletes `uuidS`, the pid index still maps 42 to `uuidS` although no such
session exists in the coordinator's table — `handle_hook_event`'s `end`
branch does not clean the index. -/
theorem pid_index_dangling_after_hook_end :
    pidFind runCpuThenEnd.idx 42 = some uuidS ∧
    mapFind runCpuThenEnd.sessions uuidS = none := by decide

/-! ## Claim C6 -/

/-- Claim C6 as stated is false: `upgrade_to_hook` on a session that is
already Hook-origin reports success even though its id is not 36
characters long, so success is not equivalent to the id predicate. -/
theorem upgrade_iff_counterexample :
    ((SessionState.new_hook 0 "abc").upgrade_to_hook).1 = true ∧
    ¬ ("abc".length = 36 ∧
       ¬ strStartsWith "abc" "pid-" ∧ ¬ strStartsWith "abc" "$") := by decide

/-- Claim C6 (amended): for every Legacy-origin session, `upgrade_to_hook`
succeeds iff the session id has length 36 and starts with neither "pid-"
nor "$"; on success the origin becomes Hook and every other field is
unchanged.  (An already-Hook session reports success without changes.) -/
theorem upgrade_law_legacy (s : SessionState)
    (h : s.session_type = SessionType.Legacy) :
    ((s.upgrade_to_hook).1 = true ↔
      (s.session_id.length = 36 ∧
       strStartsWith s.session_id "pid-" = false ∧
       strStartsWith s.session_id "$" = false)) ∧
    ((s.upgrade_to_hook).1 = true →
      (s.upgrade_to_hook).2 = { s with session_type := SessionType.Hook }) := by
  unfold SessionState.upgrade_to_hook
  rw [if_pos h]
  by_cases hc : s.session_id.length = 36 ∧
      ¬ strStartsWith s.session_id "pid-" ∧ ¬ strStartsWith s.session_id "$"
  · rw [if_pos hc]
    refine ⟨⟨fun _ => ⟨hc.1, ?_, ?_⟩, fun _ => rfl⟩, fun _ => rfl⟩
    · exact (Bool.not_eq_true _) ▸ hc.2.1
    · exact (Bool.not_eq_true _) ▸ hc.2.2
  · rw [if_neg hc]
    refine ⟨⟨fun hfalse => absurd hfalse (by simp), fun hrhs => ?_⟩,
            fun hfalse => absurd hfalse (by simp)⟩
    exact absurd ⟨hrhs.1, (Bool.not_eq_true _).symm ▸ hrhs.2.1,
                  (Bool.not_eq_true _).symm ▸ hrhs.2.2⟩ hc

/-- Non-vacuity of `upgrade_law_legacy` at a concrete Legacy session. -/
theorem upgrade_law_legacy_witness :
    ((legacyUuid.upgrade_to_hook).1 = true ↔
      (legacyUuid.session_id.length = 36 ∧
       strStartsWith legacyUuid.session_id "pid-" = false ∧
       strStartsWith legacyUuid.session_id "$" = false)) ∧
    ((legacyUuid.upgrade_to_hook).1 = true →
      (legacyUuid.upgrade_to_hook).2
        = { legacyUuid with session_type := SessionType.Hook }) :=
  upgrade_law_legacy legacyUuid rfl

/-! ## Claim C7, counterexample -/

/-- Claim C7 as stated is false: a zombie session keyed by a temporary
`pid-` id whose pid 42 is alive is removed by `cleanup_all_zombies`
although its process is not gone and its pid is not 0. -/
theorem cleanup_zombies_counterexample :
    zombie42.current_status = "zombie" ∧ zombie42.pid = 42 ∧
    is_process_alive (fun _ => true) 42 = true ∧
    cleanup_all_zombies (fun _ => true) [("pid-42", zombie42)] = [] := by decide

/-- Iteratively erasing the keys `zs` is filtering on key non-membership. -/
theorem foldl_mapErase_eq (zs : List String) (m : SessionMap) :
    zs.foldl mapErase m = m.filter (fun p => decide (p.1 ∉ zs)) := by
  induction zs generalizing m with
  | nil => simp
  | cons z zs ih =>
      rw [List.foldl_cons, ih, mapErase, List.filter_filter]
      apply List.filter_congr
      intro p _
      by_cases h1 : p.1 = z <;> by_cases h2 : p.1 ∈ zs <;> simp [h1, h2]

/-- In a table with distinct keys, a key determines its session. -/
theorem eq_of_mem_nodupKeys {m : SessionMap} (hnd : (m.map Prod.fst).Nodup)
    {k : String} {v v' : SessionState} (h1 : (k, v) ∈ m) (h2 : (k, v') ∈ m) :
    v = v' := by
  induction m with
  | nil => cases h1
  | cons hd tl ih =>
      rcases hd with ⟨k0, v0⟩
      rw [List.map_cons, List.nodup_cons] at hnd
      rcases List.mem_cons.mp h1 with h1 | h1 <;> rcases List.mem_cons.mp h2 with h2 | h2
      · rw [Prod.mk.injEq] at h1 h2
        rw [h1.2, h2.2]
      · rw [Prod.mk.injEq] at h1
        exact absurd (List.mem_map.mpr ⟨(k, v'), h2, h1.1⟩) hnd.1
      · rw [Prod.mk.injEq] at h2
        exact absurd (List.mem_map.mpr ⟨(k, v), h1, h2.1⟩) hnd.1
      · exact ih hnd.2 h1 h2

/-- The removal test of the zombie sweep, as a proposition. -/
theorem zombieRemovable_iff (alive : Nat → Bool) (k : String) (v : SessionState) :
    zombieRemovable alive k v = true ↔
      (v.current_status = "zombie" ∧
       (strStartsWith k "pid-" = true ∨ v.pid = 0 ∨
        is_process_alive alive v.pid = false)) := by
  unfold zombieRemovable
  simp only [Bool.or_eq_true, Bool.and_eq_true, beq_iff_eq, Bool.not_eq_true']
  constructor
  · rintro (⟨hp, hz⟩ | ⟨hz, h0 | hd⟩)
    · exact ⟨hz, Or.inl hp⟩
    · exact ⟨hz, Or.inr (Or.inl h0)⟩
    · exact ⟨hz, Or.inr (Or.inr hd)⟩
  · rintro ⟨hz, hp | h0 | hd⟩
    · exact Or.inl ⟨hp, hz⟩
    · exact Or.inr ⟨hz, Or.inl h0⟩
    · exact Or.inr ⟨hz, Or.inr hd⟩

/-- Claim C7 (amended): `cleanup_all_zombies` removes exactly the sessions
whose status is "zombie" and whose id starts with "pid-", or whose pid is
0, or whose process is gone; every other session stays, unchanged.
(Stated for tables with distinct keys, as `HashMap` guarantees.) -/
theorem cleanup_zombies_exact (alive : Nat → Bool) (sessions : SessionMap)
    (hnd : (sessions.map Prod.fst).Nodup) (k : String) (v : SessionState) :
    (k, v) ∈ cleanup_all_zombies alive sessions ↔
      ((k, v) ∈ sessions ∧
       ¬ (v.current_status = "zombie" ∧
          (strStartsWith k "pid-" = true ∨ v.pid = 0 ∨
           is_process_alive alive v.pid = false))) := by
  unfold cleanup_all_zombies
  rw [foldl_mapErase_eq, List.mem_filter]
  constructor
  · rintro ⟨hmem, hdec⟩
    refine ⟨hmem, fun hcond => ?_⟩
    have hrem : zombieRemovable alive k v = true :=
      (zombieRemovable_iff alive k v).mpr hcond
    have hin : k ∈ (sessions.filter
        (fun p => zombieRemovable alive p.1 p.2)).map Prod.fst :=
      List.mem_map.mpr ⟨(k, v), List.mem_filter.mpr ⟨hmem, hrem⟩, rfl⟩
    exact decide_eq_true_iff.mp hdec hin
  · rintro ⟨hmem, hnc⟩
    refine ⟨hmem, decide_eq_true_iff.mpr fun hin => ?_⟩
    rcases List.mem_map.mp hin with ⟨⟨k1, v1⟩, hmem1, hk1⟩
    rcases List.mem_filter.mp hmem1 with ⟨hmem1', hrem1⟩
    cases hk1
    have hv : v1 = v := eq_of_mem_nodupKeys hnd hmem1' hmem
    subst hv
    exact hnc ((zombieRemovable_iff alive _ v1).mp hrem1)

/-- Non-vacuity of `cleanup_zombies_exact` at a concrete table. -/
theorem cleanup_zombies_exact_witness :
    (uuidS, zombie7) ∈ cleanup_all_zombies (fun _ => false) [(uuidS, zombie7)] ↔
      ((uuidS, zombie7) ∈ [(uuidS, zombie7)] ∧
       ¬ (zombie7.current_status = "zombie" ∧
          (strStartsWith uuidS "pid-" = true ∨ zombie7.pid = 0 ∨
           is_process_alive (fun _ => false) zombie7.pid = false))) :=
  cleanup_zombies_exact (fun _ => false) [(uuidS, zombie7)] (by decide) uuidS zombie7

/-! ## Claim C8, counterexample -/

/-- Claim C8 as stated is false: in a 51-line file whose only marker line
is the 51st from the end, the marker is among the last 100 lines, yet the
derived state is Unknown — the pipeline truncates to the last 50 lines
first. -/
theorem log_tail_counterexample :
    (lastLines 100 fileMarker51).any
      (fun l => strContains l "Stream started - received first chunk") = true ∧
    analyze_log_file_state fileMarker51 = WorkingState.Unknown := by decide

/-- Claim C8 (amended): the derived state is ActivelyWorking iff some line
among the last 50 lines of the file contains the literal stream-start
marker or case-insensitively contains "compacting"; otherwise it is
Unknown. -/
theorem log_state_last50_iff (fileLines : List String) :
    (analyze_log_file_state fileLines = WorkingState.ActivelyWorking ↔
      ∃ line ∈ lastLines 50 fileLines,
        (strContains line "Stream started - received first chunk" = true ∨
         strContains (strToLower line) "compacting" = true)) ∧
    (analyze_log_file_state fileLines = WorkingState.ActivelyWorking ∨
     analyze_log_file_state fileLines = WorkingState.Unknown) := by
  have hred : (lastLines 50 fileLines).reverse.take 100 = fileLines.reverse.take 50 := by
    simp only [lastLines, List.reverse_reverse, List.take_take]
    norm_num
  have hmemln : ∀ l : String, l ∈ lastLines 50 fileLines ↔ l ∈ fileLines.reverse.take 50 := by
    intro l
    simp [lastLines]
  constructor
  · simp only [analyze_log_file_state, analyze_log_content, hred]
    by_cases h1 : (fileLines.reverse.take 50).any
        (fun line => strContains line "Stream started - received first chunk") = true
    · rw [if_pos (by simp [h1])]
      constructor
      · intro _
        rcases List.any_eq_true.mp h1 with ⟨l, hl, hp⟩
        exact ⟨l, (hmemln l).mpr hl, Or.inl hp⟩
      · intro _; rfl
    · by_cases h2 : (fileLines.reverse.take 50).any
          (fun line => strContains (strToLower line) "compacting") = true
      · rw [if_pos (by simp [h2])]
        constructor
        · intro _
          rcases List.any_eq_true.mp h2 with ⟨l, hl, hp⟩
          exact ⟨l, (hmemln l).mpr hl, Or.inr hp⟩
        · intro _; rfl
      · rw [if_neg (by
          intro hor
          rcases Bool.or_eq_true _ _ ▸ hor with h | h
          · exact h1 h
          · exact h2 h)]
        constructor
        · intro hcon; cases hcon
        · rintro ⟨l, hl, hp⟩
          have hl' : l ∈ fileLines.reverse.take 50 := (hmemln l).mp hl
          rcases hp with hp | hp
          · exact absurd (List.any_eq_true.mpr ⟨l, hl', hp⟩) h1
          · exact absurd (List.any_eq_true.mpr ⟨l, hl', hp⟩) h2
  · simp only [analyze_log_file_state, analyze_log_content]
    split
    · exact Or.inl rfl
    · exact Or.inr rfl

/-! ## Claim C3 -/

/-- Claim C3 as stated is false: a working Legacy session satisfying the
idle-guard conditions (fresh idle CPU sample, stale log) but without a
terminal is decided "zombie", not "resting". -/
theorem legacy_idle_guard_counterexample :
    idleNoTerm.current_status = "working" ∧
    idleNoTerm.session_type = SessionType.Legacy ∧
    idleNoTerm.last_cpu_event = some ⟨7, 100, mkRat 1 10⟩ ∧
    envA.now - (100 : Nat) ≤ 10 ∧ (mkRat 1 10 ≤ mkRat 1 2) ∧
    idleNoTerm.last_log_event = some ⟨"s", none, 0, WorkingState.Unknown, false, 0⟩ ∧
    envA.now - (0 : Nat) > 45 ∧
    decide_status_legacy envA idleNoTerm ≠ "resting" := by decide

/-- Claim C3 (amended): for every Legacy session that still has its
terminal and whose current status is "working", `decide_status_legacy`
returns "resting" whenever a CPU sample at most 10 seconds old reports
cpu ≤ 0.5% and either a log sample exists with now − file_mtime > 45 s,
or no log sample exists and now − last_update > 60 s; the idle guard is
evaluated before the ActivelyWorking log rules. -/
theorem legacy_idle_guard (env : Env) (s : SessionState)
    (hterm : s.has_terminal = true)
    (hw : s.current_status = "working")
    (cpu : CpuEvent) (hcpu : s.last_cpu_event = some cpu)
    (_hage : env.now - cpu.timestamp ≤ 10)
    (hlow : cpu.cpu_percent ≤ mkRat 1 2)
    (hidle : (∃ log, s.last_log_event = some log ∧ env.now - log.file_mtime > 45) ∨
             (s.last_log_event = none ∧ env.now - s.last_update > 60)) :
    decide_status_legacy env s = "resting" := by
  unfold decide_status_legacy
  rw [hterm, if_neg (by decide : ¬ ((true : Bool) = false))]
  by_cases hlt : env.now - cpu.timestamp < 10
  · have hig : idleGuard env s = some "resting" := by
      unfold idleGuard
      rw [hw, if_pos rfl, hcpu]
      dsimp only
      rw [if_pos ⟨hlt, hlow⟩]
      rcases hidle with ⟨log, hl, h45⟩ | ⟨hnone, h60⟩
      · rw [hl]; dsimp only; rw [if_pos h45]
      · rw [hnone]; dsimp only; rw [if_pos h60]
    rw [hig]
  · have hig : idleGuard env s = none := by
      unfold idleGuard
      rw [hw, if_pos rfl, hcpu]
      dsimp only
      rw [if_neg (fun hc => hlt hc.1)]
    rw [hig]
    dsimp only
    rcases hidle with ⟨log, hl, h45⟩ | ⟨hnone, h60⟩
    · rw [hl]
      dsimp only
      have h30 : env.now - log.file_mtime ≥ 30 := by omega
      by_cases hstate : log.state = WorkingState.ActivelyWorking
      · have hsb : streamBlock env s log = some "resting" := by
          unfold streamBlock
          rw [if_pos hstate, if_pos h30]
        rw [hsb]
      · have hsb : streamBlock env s log = none := by
          unfold streamBlock
          rw [if_neg hstate]
        rw [hsb]
        dsimp only
        rw [hcpu]
        dsimp only
        rw [if_neg (fun hc => hlt hc.1)]
    · rw [hnone]
      dsimp only
      rw [hcpu]
      dsimp only
      rw [if_neg (fun hc => hlt hc.1)]

/-- Non-vacuity of `legacy_idle_guard` at a concrete session. -/
theorem legacy_idle_guard_witness :
    decide_status_legacy envA idleWithTerm = "resting" :=
  legacy_idle_guard envA idleWithTerm rfl rfl ⟨7, 100, mkRat 1 10⟩ rfl (by decide) (by decide)
    (Or.inl ⟨⟨"s", none, 0, WorkingState.Unknown, false, 0⟩, rfl, by decide⟩)

/-! ## Claim C4 -/

/-- Claim C4 as stated is false: a LogEvent carrying the dead pid 7 still
creates a session when a temporary `pid-` session with a live non-zero
pid shadows the event's pid in the dead-pid check. -/
theorem dead_pid_counterexample :
    is_process_alive env9.alive 7 = false ∧ logPid7.pid = some 7 ∧
    (mapFind (handle_log_event env9 logPid7 [("pid-9", tempSess9)] []).1 uuidS).isSome
      = true := by decide

/-- Claim C4 (amended): a LogEvent whose effective pid — the pid of the
first merge-candidate temporary session when one exists and the event's
session id is absent, otherwise the event's own pid — is non-zero and
reported dead by `is_process_alive` is a no-op on the session map, the
pid index and the sinks. -/
theorem dead_pid_noop (env : Env) (e : LogEvent) (sessions : SessionMap) (idx : PidMap)
    (h : deadPid env ((findTempPid sessions e.session_id).or e.pid) = true) :
    handle_log_event env e sessions idx = (sessions, idx, []) := by
  simp only [handle_log_event]
  rw [if_pos h]

/-- Non-vacuity of `dead_pid_noop` at a concrete input. -/
theorem dead_pid_noop_witness :
    handle_log_event envDead logPid5 [] [] = ([], [], []) :=
  dead_pid_noop envDead logPid5 [] [] (by decide)

/-! ## Claim C5 -/

/-- Claim C5 as stated is false on one conjunct: the constructor
`SessionState::new_legacy` initializes `current_status` to "unknown",
not "resting". -/
theorem status_initial_value_counterexample :
    (SessionState.new_legacy 0 42 "s").current_status = "unknown" ∧
    (SessionState.new_legacy 0 42 "s").current_status ≠ "resting" := by decide

/-! Totality machinery for the amended claim C5. -/

theorem idleGuard_some {env : Env} {s : SessionState} {r : String}
    (h : idleGuard env s = some r) : r = "resting" := by
  unfold idleGuard at h
  repeat' split at h
  all_goals first | (exact (Option.some.inj h).symm) | (cases h)

theorem streamBlock_some {env : Env} {s : SessionState} {log : LogEvent} {r : String}
    (h : streamBlock env s log = some r) : r = "working" ∨ r = "resting" := by
  unfold streamBlock at h
  dsimp only at h
  repeat' split at h
  all_goals
    first
      | (exact Or.inl (Option.some.inj h).symm)
      | (exact Or.inr (Option.some.inj h).symm)
      | (cases h)

theorem decide_status_legacy_ok (env : Env) (s : SessionState) :
    okStatus (decide_status_legacy env s) := by
  unfold decide_status_legacy
  by_cases ht : s.has_terminal = false
  · rw [if_pos ht]; exact Or.inr (Or.inr rfl)
  · rw [if_neg ht]
    cases hig : idleGuard env s with
    | some r =>
        dsimp only
        rw [idleGuard_some hig]
        exact Or.inr (Or.inl rfl)
    | none =>
        dsimp only
        cases hlog : s.last_log_event with
        | some log =>
            dsimp only
            cases hsb : streamBlock env s log with
            | some r =>
                dsimp only
                rcases streamBlock_some hsb with h | h
                · rw [h]; exact Or.inl rfl
                · rw [h]; exact Or.inr (Or.inl rfl)
            | none =>
                dsimp only
                cases hcpu : s.last_cpu_event with
                | some cpu =>
                    dsimp only
                    split_ifs
                    · exact Or.inl rfl
                    · exact Or.inr (Or.inl rfl)
                | none => exact Or.inr (Or.inl rfl)
        | none =>
            dsimp only
            cases hcpu : s.last_cpu_event with
            | some cpu =>
                dsimp only
                split_ifs
                · exact Or.inl rfl
                · exact Or.inr (Or.inl rfl)
            | none => exact Or.inr (Or.inl rfl)

theorem decide_status_ok (env : Env) (s : SessionState)
    (h : okStatus s.current_status ∨ s.current_status = "unknown") :
    okStatus (decide_status env s) := by
  unfold decide_status
  by_cases ht : s.has_terminal = false
  · rw [if_pos ht]; exact Or.inr (Or.inr rfl)
  · rw [if_neg ht]
    by_cases hz : s.pid ≠ 0 ∧ env.ttyZombie s.pid = true
    · rw [if_pos hz]; exact Or.inr (Or.inr rfl)
    · rw [if_neg hz]
      dsimp only
      cases hty : s.session_type with
      | Legacy =>
          dsimp only
          by_cases hu : decide_status_legacy env s = "unknown"
          · rw [if_pos hu]; exact Or.inr (Or.inl rfl)
          · rw [if_neg hu]; exact decide_status_legacy_ok env s
      | Hook =>
          dsimp only [decide_status_hook]
          by_cases hu : s.current_status = "unknown"
          · rw [if_pos hu]; exact Or.inr (Or.inl rfl)
          · rw [if_neg hu]
            rcases h with h | h
            · exact h
            · exact absurd h hu

theorem decide_status_ne_unknown (env : Env) (s : SessionState) :
    decide_status env s ≠ "unknown" := by
  unfold decide_status
  by_cases ht : s.has_terminal = false
  · rw [if_pos ht]; decide
  · rw [if_neg ht]
    by_cases hz : s.pid ≠ 0 ∧ env.ttyZombie s.pid = true
    · rw [if_pos hz]; decide
    · rw [if_neg hz]
      dsimp only
      generalize (match s.session_type with
        | SessionType.Legacy => decide_status_legacy env s
        | SessionType.Hook => decide_status_hook s) = st
      by_cases hu : st = "unknown"
      · rw [if_pos hu]; decide
      · rw [if_neg hu]; exact hu

theorem statusUpdate_ok (env : Env) (s2 : SessionState)
    (h : okStatus s2.current_status ∨ s2.current_status = "unknown") :
    okStatus (if decide_status env s2 ≠ s2.current_status
              then { s2 with current_status := decide_status env s2 }
              else s2).current_status := by
  by_cases hne : decide_status env s2 ≠ s2.current_status
  · rw [if_pos hne]
    exact decide_status_ok env s2 h
  · rw [if_neg hne]
    rcases h with h | h
    · exact h
    · exact absurd ((not_not.mp hne).trans h) (decide_status_ne_unknown env s2)

theorem statusUpdatePair_ok (env : Env) (s3 : SessionState) (ems : List Emit)
    (h : okStatus s3.current_status ∨ s3.current_status = "unknown") :
    okStatus ((if decide_status env s3 ≠ s3.current_status
               then ({ s3 with current_status := decide_status env s3 }, ems)
               else (s3, ([] : List Emit))).1.current_status) := by
  by_cases hne : decide_status env s3 ≠ s3.current_status
  · rw [if_pos hne]
    exact decide_status_ok env s3 h
  · rw [if_neg hne]
    rcases h with h | h
    · exact h
    · exact absurd ((not_not.mp hne).trans h) (decide_status_ne_unknown env s3)

theorem mapOk_insert {m : SessionMap} {k : String} {v : SessionState}
    (hm : mapOk m) (hv : okStatus v.current_status) : mapOk (mapInsert m k v) := by
  intro k' v' hmem
  rcases mem_mapInsert hmem with heq | hmem'
  · injection heq with h1 h2
    rw [h2]
    exact hv
  · exact hm _ _ hmem'

theorem mapOk_of_sub {m m' : SessionMap} (hsub : ∀ p, p ∈ m' → p ∈ m)
    (hm : mapOk m) : mapOk m' :=
  fun k v hmem => hm k v (hsub _ hmem)

theorem insertAll_ok {sh l : SessionMap} (hsh : mapOk sh) (hl : mapOk l) :
    mapOk (insertAll sh l) := by
  induction l generalizing sh with
  | nil => exact hsh
  | cons hd tl ih =>
      rcases hd with ⟨k, v⟩
      unfold insertAll
      exact ih (mapOk_insert hsh (hl k v (List.mem_cons_self _ _)))
        (fun k' v' hmem => hl k' v' (List.mem_cons_of_mem _ hmem))

theorem foldl_erase_ok {zs : List String} {m : SessionMap} (hm : mapOk m) :
    mapOk (zs.foldl mapErase m) := by
  rw [foldl_mapErase_eq]
  exact mapOk_of_sub (fun p hp => List.mem_of_mem_filter hp) hm

theorem handle_log_ok (env : Env) (e : LogEvent) (m : SessionMap) (idx : PidMap)
    (hm : mapOk m) : mapOk (handle_log_event env e m idx).1 := by
  unfold handle_log_event
  dsimp only
  by_cases h1 : deadPid env ((findTempPid m e.session_id).or e.pid) = true
  · rw [if_pos h1]; exact hm
  · rw [if_neg h1]
    cases hf : findTempPid m e.session_id with
    | none =>
        dsimp only [Option.or]
        cases hmf : mapFind m e.session_id with
        | some s =>
            dsimp only [Option.getD]
            have hok : okStatus s.current_status := hm _ _ (mem_of_mapFind hmf)
            by_cases h2 : s.pid ≠ 0 ∧ is_process_alive env.alive s.pid = false
            · rw [if_pos h2]
              exact mapOk_insert hm hok
            · rw [if_neg h2]
              dsimp only
              apply mapOk_insert hm
              refine statusUpdate_ok env _ ?_
              exact Or.inl hok
        | none =>
            rcases hpe : e.pid with _ | p
            · dsimp only [SessionState.new_legacy, Option.getD]
              rw [if_neg (fun hc => absurd rfl hc.1)]
              dsimp only
              apply mapOk_insert hm
              refine statusUpdate_ok env _ ?_
              exact Or.inr rfl
            · dsimp only [SessionState.new_legacy, Option.getD]
              by_cases h2 : p ≠ 0 ∧ is_process_alive env.alive p = false
              · exfalso
                rw [hf] at h1
                rw [hpe] at h1
                simp only [Option.or] at h1
                unfold deadPid at h1
                exact h1 (by
                  rw [Bool.and_eq_true]
                  exact ⟨decide_eq_true h2.1, by rw [h2.2]; rfl⟩)
              · rw [if_neg h2]
                dsimp only
                apply mapOk_insert hm
                refine statusUpdate_ok env _ ?_
                exact Or.inr rfl
    | some p =>
        dsimp only [Option.or]
        obtain ⟨hnone, hp0⟩ := findTempPid_some hf
        rw [hnone]
        dsimp only [SessionState.new_legacy, Option.getD]
        by_cases h2 : p ≠ 0 ∧ is_process_alive env.alive p = false
        · exfalso
          rw [hf] at h1
          simp only [Option.or] at h1
          unfold deadPid at h1
          exact h1 (by
            rw [Bool.and_eq_true]
            exact ⟨decide_eq_true h2.1, by rw [h2.2]; rfl⟩)
        · rw [if_neg h2]
          rw [if_neg hp0]
          dsimp only
          apply mapOk_insert hm
          refine statusUpdate_ok env _ ?_
          exact Or.inr rfl

theorem cpuTtyCheck_status (env : Env) (e : CpuEvent) (sid : String) (s3 : SessionState) :
    (cpuTtyCheck env e sid s3).1.current_status = s3.current_status ∨
    (cpuTtyCheck env e sid s3).1.current_status = "zombie" := by
  unfold cpuTtyCheck
  dsimp only
  split_ifs <;> first | exact Or.inl rfl | exact Or.inr rfl

theorem cpuIdleRecheck_status (env : Env) (s4 : SessionState)
    (h : okStatus s4.current_status) :
    okStatus (cpuIdleRecheck env s4).1.current_status := by
  unfold cpuIdleRecheck
  by_cases h1 : s4.current_status = "working" ∧ s4.session_type = SessionType.Legacy
  · rw [if_pos h1]
    dsimp only
    by_cases h2 : decide_status env s4 ≠ s4.current_status
    · rw [if_pos h2]
      exact decide_status_ok env s4 (Or.inl h)
    · rw [if_neg h2]; exact h
  · rw [if_neg h1]; exact h

theorem handle_cpu_ok (env : Env) (e : CpuEvent) (m : SessionMap) (idx : PidMap)
    (hm : mapOk m) : mapOk (handle_cpu_event env e m idx).1 := by
  unfold handle_cpu_event
  cases hp : pidFind idx e.pid with
  | some sid0 =>
      dsimp only
      cases hmf : mapFind m sid0 with
      | none => exact hm
      | some s =>
          dsimp only
          have hok : okStatus s.current_status := hm _ _ (mem_of_mapFind hmf)
          apply mapOk_insert hm
          apply cpuIdleRecheck_status
          rcases cpuTtyCheck_status env e sid0 _ with hcs | hcs
          · rw [hcs]
            split_ifs <;> exact hok
          · rw [hcs]
            exact Or.inr (Or.inr rfl)
  | none =>
      dsimp only
      cases hr : env.resolveSid e.pid with
      | none => exact hm
      | some rsid =>
          dsimp only
          apply mapOk_insert hm
          by_cases hz : env.ttyZombie e.pid = true
          · rw [if_pos hz]
            refine statusUpdatePair_ok env _ _ ?_
            exact Or.inl (Or.inr (Or.inr rfl))
          · rw [if_neg hz]
            cases hmf : mapFind m rsid with
            | some s =>
                dsimp only [Option.getD]
                have hok : okStatus s.current_status := hm _ _ (mem_of_mapFind hmf)
                refine statusUpdatePair_ok env _ _ ?_
                exact Or.inl hok
            | none =>
                dsimp only [SessionState.new_legacy, Option.getD]
                refine statusUpdatePair_ok env _ _ ?_
                exact Or.inl (Or.inr (Or.inl rfl))

theorem handle_hook_ok (env : Env) (e : HookEvent) (m : SessionMap)
    (hm : mapOk m) : mapOk (handle_hook_event env e m).1 := by
  unfold handle_hook_event
  by_cases h1 : e.evt = "start"
  · rw [if_pos h1]
    dsimp only
    apply mapOk_insert hm
    exact Or.inr (Or.inl rfl)
  · rw [if_neg h1]
    by_cases h2 : e.evt = "working"
    · rw [if_pos h2]
      cases hmf : mapFind m e.sid with
      | some s =>
          dsimp only
          exact mapOk_insert hm (Or.inl rfl)
      | none => exact hm
    · rw [if_neg h2]
      by_cases h3 : e.evt = "resting"
      · rw [if_pos h3]
        cases hmf : mapFind m e.sid with
        | some s =>
            dsimp only
            exact mapOk_insert hm (Or.inr (Or.inl rfl))
        | none => exact hm
      · rw [if_neg h3]
        by_cases h4 : e.evt = "end"
        · rw [if_pos h4]
          cases hmf : mapFind m e.sid with
          | some s =>
              dsimp only
              exact mapOk_of_sub (fun p hp => mem_mapErase hp) hm
          | none => exact hm
        · rw [if_neg h4]; exact hm

theorem cleanup_stale_ok (now : Nat) (m : SessionMap) (idx : PidMap)
    (hm : mapOk m) : mapOk (cleanup_stale_sessions now m idx).1 := by
  unfold cleanup_stale_sessions
  exact mapOk_of_sub (fun p hp => List.mem_of_mem_filter hp) hm

theorem coordStep_ok (env : Env) (st : CoordState) (ev : MonitorEvent)
    (hs : mapOk st.sessions) (hsh : mapOk st.shared) :
    mapOk (coordStep env st ev).1.sessions ∧ mapOk (coordStep env st ev).1.shared := by
  cases ev with
  | Log e =>
      have h1 : mapOk (handle_log_event env e st.sessions st.idx).1 :=
        handle_log_ok env e _ _ hs
      unfold coordStep
      dsimp only
      refine ⟨?_, ?_⟩ <;> split <;>
        first
          | exact foldl_erase_ok h1
          | exact insertAll_ok hsh h1
          | exact cleanup_stale_ok env.now _ (handle_log_event env e st.sessions st.idx).2.1 (foldl_erase_ok h1)
  | Cpu e =>
      have h1 : mapOk (handle_cpu_event env e st.sessions st.idx).1 :=
        handle_cpu_ok env e _ _ hs
      unfold coordStep
      dsimp only
      refine ⟨?_, ?_⟩ <;> split <;>
        first
          | exact foldl_erase_ok h1
          | exact insertAll_ok hsh h1
          | exact cleanup_stale_ok env.now _ (handle_cpu_event env e st.sessions st.idx).2.1 (foldl_erase_ok h1)
  | Hook e =>
      have h1 : mapOk (handle_hook_event env e st.sessions).1 :=
        handle_hook_ok env e _ hs
      unfold coordStep
      dsimp only
      refine ⟨?_, ?_⟩ <;> split <;>
        first
          | exact foldl_erase_ok h1
          | exact insertAll_ok hsh h1
          | exact cleanup_stale_ok env.now _ st.idx (foldl_erase_ok h1)

theorem sysStep_ok (st : CoordState) (stp : SysStep)
    (hs : mapOk st.sessions) (hsh : mapOk st.shared) :
    mapOk (sysStep st stp).sessions ∧ mapOk (sysStep st stp).shared := by
  cases stp with
  | coord env ev => exact coordStep_ok env st ev hs hsh
  | cleanerRemove k =>
      exact ⟨hs, mapOk_of_sub (fun p hp => mem_mapErase hp) hsh⟩


/-- Claim C5 (amended): after every coordinator step and every cleaner
removal, starting from the empty state, every session present in the
shared snapshot (and in the coordinator's local table) has
`current_status` equal to "working", "resting" or "zombie" — never
"unknown".  Hook sessions are initialized to "resting"; Legacy sessions
are constructed with "unknown", which the decision pipeline replaces
before the session reaches any table. -/
theorem snapshot_status_totality (steps : List SysStep) :
    mapOk (runSteps steps).shared ∧ mapOk (runSteps steps).sessions := by
  suffices h : ∀ st : CoordState, mapOk st.sessions → mapOk st.shared →
      mapOk (steps.foldl sysStep st).sessions ∧ mapOk (steps.foldl sysStep st).shared by
    have hinit := h initState (fun _ _ hmem => absurd hmem (List.not_mem_nil _))
      (fun _ _ hmem => absurd hmem (List.not_mem_nil _))
    exact ⟨hinit.2, hinit.1⟩
  induction steps with
  | nil => exact fun st hs hsh => ⟨hs, hsh⟩
  | cons p rest ih =>
      intro st hs hsh
      rw [List.foldl_cons]
      rcases sysStep_ok st p hs hsh with ⟨h1, h2⟩
      exact ih _ h1 h2


end ClaudeMiner
